import Mathlib

/-!
Verification of the prompt2model repository: the `GenerationModelTrainer`
component (`prompt2model/model_trainer/generate.py`) and the
description-based model retriever (specified in the repository's design
document; its implementation is exercised by `tests/model_retriever_test.py`).

Part 1 embeds the trainer's pure decision logic from the source:
label derivation in `preprocess_dataset`, hyperparameter-key validation,
evaluation-strategy forcing and train/validation split selection in
`train_model`.

Part 2 models the retriever: cosine-similarity ranking, threshold
decision, index loading and the persisted-artifact round trip.
-/

namespace Prompt2Model

/-! ## Part 1: GenerationModelTrainer (`generate.py`) -/

/-- Token-id sequences, one list per example (output of
`tokenizer.batch_encode_plus(...)["input_ids"]`). -/
abbrev TokenIds := List (List ℤ)

/-- The label-derivation step of `preprocess_dataset` (generate.py:99-106).
Source:
```
if self.has_encoder:
    labels = output_encodings["input_ids"]
    for i, label in enumerate(labels):
        labels[i] = [-100 for _ in label]
else:
    labels = input_encodings["input_ids"]
```
-/
def preprocessLabels (has_encoder : Bool) (input_ids output_ids : TokenIds) :
    TokenIds :=
  if has_encoder then
    output_ids.map (fun label => label.map (fun _ => (-100 : ℤ)))
  else
    input_ids

/-- The dictionary built by `preprocess_dataset` (generate.py:107-111). -/
structure PreprocessedDataset where
  input_ids : TokenIds
  attention_mask : TokenIds
  labels : TokenIds
  deriving Repr, DecidableEq

/-- `preprocess_dataset` after tokenization: assembles the preprocessed
dictionary from the two batch encodings (generate.py:99-112). -/
def preprocess_dataset (has_encoder : Bool)
    (input_ids input_attention_mask output_ids : TokenIds) :
    PreprocessedDataset :=
  { input_ids := input_ids
    attention_mask := input_attention_mask
    labels := preprocessLabels has_encoder input_ids output_ids }

/-- A hyperparameter value (`Any` in the Python signature). -/
inductive HValue where
  | str (s : String)
  | num (q : ℚ)
  | boolean (b : Bool)
  deriving Repr, DecidableEq

/-- `hyperparameter_choices: dict[str, Any]`, modelled as an association
list. -/
abbrev HParams := List (String × HValue)

/-- `supported_keys` from `train_model` (generate.py:174-185). -/
def supported_keys : List String :=
  ["output_dir", "logging_steps", "evaluation_strategy", "save_strategy",
   "num_train_epochs", "per_device_train_batch_size", "warmup_steps",
   "weight_decay", "logging_dir", "learning_rate"]

/-- `hyperparameter_choices_keys.issubset(supported_keys)`
(generate.py:186-188). -/
def keysSupported (hp : HParams) : Bool :=
  hp.all (fun kv => supported_keys.contains kv.1)

/-- `hyperparameter_choices.get(key)` restricted to string values, with a
default (the only lookup whose value `train_model`'s control flow inspects
is `evaluation_strategy`). -/
def getStr (hp : HParams) (key : String) (default : String) : String :=
  match hp.find? (fun kv => kv.1 == key) with
  | some (_, HValue.str s) => s
  | _ => default

/-- Where the validation set used by the trainer comes from
(generate.py:211-230). -/
inductive ValSource where
  | split (testSize : ℚ)
  | supplied
  | noVal
  deriving Repr, DecidableEq

/-- The trainer configuration assembled by `train_model` before
`trainer.train()` is called: the fields of `Seq2SeqTrainingArguments` and of
the `Seq2SeqTrainer` constructor that the claims are about, together with the
`logging.warning` messages emitted on the way. -/
structure TrainerConfig where
  evaluation_strategy : String
  valSource : ValSource
  computeMetricsUsed : Bool
  warnings : List String
  deriving Repr, DecidableEq

/-- The warning emitted for decoder-only models (generate.py:207-209 and
226-228). -/
def decoderEvalWarning : String :=
  "Decoder-only model does not support evaluation during training"

/-- The configuration `train_model` assembles once its key validation has
passed (generate.py:189-248): `evaluation_strategy` with its model-dependent
default (line 192-194), forced to `"no"` with a warning for decoder-only
models (lines 206-210), the train/validation selection (lines 211-230), and
`compute_metrics` passed only for encoder-decoder models (line 247). -/
def buildTrainerConfig (has_encoder : Bool) (hp : HParams)
    (validation_datasets : List Unit) : TrainerConfig :=
  let es0 := getStr hp "evaluation_strategy"
    (if has_encoder then "epoch" else "no")
  let forced := es0 ≠ "no" ∧ has_encoder = false
  let es := if forced then "no" else es0
  let warnings1 := if forced then [decoderEvalWarning] else []
  let vs :=
    if has_encoder then
      if validation_datasets.isEmpty then ValSource.split (15 / 100)
      else ValSource.supplied
    else ValSource.noVal
  let warnings2 :=
    if has_encoder = false ∧ ¬ validation_datasets.isEmpty then
      [decoderEvalWarning]
    else []
  { evaluation_strategy := es
    valSource := vs
    computeMetricsUsed := has_encoder
    warnings := warnings1 ++ warnings2 }

/-- `train_model` (generate.py:114-254), up to handing the assembled
configuration to the external `Seq2SeqTrainer`: validates the
hyperparameter keys (the `assert` at generate.py:186-188, modelled as an
`Except.error` — an `AssertionError` raised before any dataset is
preprocessed and before the trainer is built or run), then assembles the
trainer configuration. `validation_datasets` is a list of (opaque)
datasets; Python's `if not validation_datasets` treats both `None` and
`[]` as absent. -/
def train_model (has_encoder : Bool) (hp : HParams)
    (validation_datasets : List Unit) : Except String TrainerConfig :=
  if ¬ keysSupported hp then
    Except.error "Only support supported_keys as training parameters"
  else
    Except.ok (buildTrainerConfig has_encoder hp validation_datasets)

/-! ## Part 2: Description-based model retriever

The retriever's implementation file is not part of the sources at hand
(only its tests are), so the operations below are modelled from the
specification: §3 (data model), §4.3 (operations `encode_model_descriptions`
and `retrieve`), §6 (persisted index artifact) and §7 (error taxonomy).
Vectors are sequences of rationals; cosine-similarity comparisons are made
decidable by comparing squared quantities with explicit sign analysis
(`cos(q,a) = dot q a / (‖q‖·‖a‖)`, and `x ≥ y` for quantities `d/√n` is
decided on `d², n` and the signs of `d`). -/

/-- A description-embedding vector. -/
abbrev Vec := List ℚ

/-- Dot product of two vectors. -/
def dot (a b : Vec) : ℚ := (List.zipWith (· * ·) a b).sum

/-- Squared Euclidean norm. -/
def normSq (v : Vec) : ℚ := dot v v

/-- Numerator of the similarity of `q` and `v`, with a zero-norm vector
treated as having similarity 0: `cos(q,v) = simNum q v / (‖q‖·√(simDen v))`
when `‖q‖ ≠ 0`. -/
def simNum (q v : Vec) : ℚ := if normSq v = 0 then 0 else dot q v

/-- Squared denominator contributed by `v` to the similarity of `q` and
`v` (1 for a zero-norm vector, whose similarity is 0 anyway). -/
def simDen (v : Vec) : ℚ := if normSq v = 0 then 1 else normSq v

/-- Modelled from the spec: the similarity comparison of §4.3 step 3
(the retriever implementation file is absent from the sources). Decides
`cos(q,a) ≥ cos(q,b)` without square roots, by sign analysis and
comparison of squares. The query norm is a common positive factor of both
sides and cancels. -/
def cosGE (q a b : Vec) : Bool :=
  if 0 ≤ simNum q a then
    if simNum q b ≤ 0 then true
    else decide (simNum q b ^ 2 * simDen a ≤ simNum q a ^ 2 * simDen b)
  else
    if 0 ≤ simNum q b then false
    else decide (simNum q a ^ 2 * simDen b ≤ simNum q b ^ 2 * simDen a)

/-- Modelled from the spec: the minimum-similarity threshold decision of
§4.3 step 6 (the retriever implementation file is absent from the
sources). Decides `cos(q,v) ≥ t` for a
minimum-similarity threshold `t`, with a zero-norm vector (or query)
treated as having similarity 0. -/
def simAtLeast (q v : Vec) (t : ℚ) : Bool :=
  if normSq q * normSq v = 0 then decide (t ≤ 0)
  else if 0 < t then
    decide (0 ≤ dot q v) &&
      decide (t ^ 2 * (normSq q * normSq v) ≤ dot q v ^ 2)
  else
    decide (0 ≤ dot q v) ||
      decide (dot q v ^ 2 ≤ t ^ 2 * (normSq q * normSq v))

/-- Stable insertion into a list of row indices already sorted by
descending similarity to `q`: the new index `i` passes a resident index `j`
only when its similarity is strictly greater, so ties keep the lower
original catalog index first (spec §4.3 step 5). -/
def insertRanked (q : Vec) (rows : List Vec) (i : ℕ) :
    List ℕ → List ℕ
  | [] => [i]
  | j :: js =>
      if cosGE q (rows.getD j []) (rows.getD i []) then
        j :: insertRanked q rows i js
      else
        i :: j :: js

/-- Modelled from the spec: the ranking of §4.3 step 4 (the retriever
implementation file is absent from the sources) — the row indices
`0, …, rows.length - 1` ranked by descending similarity to `q`, stable. -/
def rankRows (q : Vec) (rows : List Vec) : List ℕ :=
  (List.range rows.length).foldl (fun acc i => insertRanked q rows i acc) []

/-- Errors a `retrieve` call can signal (spec §7). -/
inductive RetrieveError where
  | emptyIndex
  deriving Repr, DecidableEq

/-- Outcome of `retrieve`: a match, the distinct "no suitable match"
outcome, or an error — distinguishable by constructor, not by string
inspection (spec §7, §9). -/
inductive RetrieveResult where
  | found (name : String)
  | noMatch
  | error (e : RetrieveError)
  deriving Repr, DecidableEq

/-- Modelled from the spec: the `retrieve` operation of §4.3, steps 2-6
and edge cases (the retriever implementation file is absent from the
sources;
the query arrives already encoded, since the text encoder is an external
collaborator): on an empty catalog, signal `EmptyIndexError` before
touching the index; otherwise clamp `search_depth` to the number of index
rows, rank rows by descending similarity, take the top candidates, and
return the catalog name of the best one unless its similarity is below the
threshold `t`, in which case the outcome is `noMatch`. -/
def retrieve (model_names : List String) (vecs : List Vec)
    (lookup_indices : List ℕ) (q : Vec) (search_depth : ℕ) (t : ℚ) :
    RetrieveResult :=
  if model_names.length = 0 then RetrieveResult.error RetrieveError.emptyIndex
  else
    match (rankRows q vecs).take (min search_depth vecs.length) with
    | [] => RetrieveResult.noMatch
    | best :: _ =>
        if simAtLeast q (vecs.getD best []) t then
          RetrieveResult.found
            (model_names.getD (lookup_indices.getD best 0) "")
        else
          RetrieveResult.noMatch

/-- Modelled from the spec: the cache-acceptance rule of §4.3
`encode_model_descriptions` (the retriever implementation file is absent
from the sources) — a cached
pair persisted at `search_index_path` is loaded in preference to
recomputation "provided its row count matches `N`" (the catalog size). -/
def acceptIndex (N : ℕ) (vecs : List Vec) (_lookup_indices : List ℕ) :
    Bool :=
  vecs.length == N

/-- Modelled from the spec: the index computation of §4.3
`encode_model_descriptions` (the retriever implementation file is absent
from the sources) — on a cache
miss, every catalog description is encoded, row `i` corresponding to
`model_names[i]`, with lookup indices correlating rows to catalog
positions. -/
def computeIndex (model_descriptions : List String)
    (encode : String → Vec) : List Vec × List ℕ :=
  (model_descriptions.map encode, List.range model_descriptions.length)

/-- The persisted index artifact (spec §3, §6): a 2-tuple of the encoded
vectors and the lookup indices. -/
structure ModelIndex where
  encoded_vectors : List Vec
  lookup_indices : List ℕ
  deriving Repr, DecidableEq

/-- A token of the serialized index artifact: lengths and lookup indices
are naturals, vector entries are rationals. -/
inductive Tok where
  | nat (n : ℕ)
  | rat (q : ℚ)
  deriving Repr, DecidableEq

/-- Modelled from the spec: the persisted index artifact of §6 (the
retriever implementation file is absent from the sources) — the artifact is an opaque
binary serialization of the 2-tuple `(encoded_vectors, lookup_indices)`
that "must round-trip exactly". Each sequence is written length-prefixed. -/
def encodeIndex (idx : ModelIndex) : List Tok :=
  Tok.nat idx.encoded_vectors.length ::
    (idx.encoded_vectors.flatMap (fun v => Tok.nat v.length :: v.map Tok.rat) ++
      (Tok.nat idx.lookup_indices.length ::
        idx.lookup_indices.map Tok.nat))

/-- Reads `n` rational tokens, returning them with the remaining stream. -/
def readRats : ℕ → List Tok → Option (List ℚ × List Tok)
  | 0, ts => some ([], ts)
  | n + 1, Tok.rat q :: ts =>
      (readRats n ts).map (fun p => (q :: p.1, p.2))
  | _ + 1, _ => none

/-- Reads `n` natural tokens, returning them with the remaining stream. -/
def readNats : ℕ → List Tok → Option (List ℕ × List Tok)
  | 0, ts => some ([], ts)
  | n + 1, Tok.nat m :: ts =>
      (readNats n ts).map (fun p => (m :: p.1, p.2))
  | _ + 1, _ => none

/-- Reads `n` length-prefixed vectors, returning them with the remaining
stream. -/
def readRows : ℕ → List Tok → Option (List Vec × List Tok)
  | 0, ts => some ([], ts)
  | n + 1, Tok.nat len :: ts =>
      match readRats len ts with
      | none => none
      | some (v, rest) =>
          match readRows n rest with
          | none => none
          | some (vs, rest') => some (v :: vs, rest')
  | _ + 1, _ => none

/-- Deserializes a persisted index artifact; `none` on a malformed
stream. -/
def decodeIndex (ts : List Tok) : Option ModelIndex :=
  match ts with
  | Tok.nat n :: ts =>
      match readRows n ts with
      | none => none
      | some (vs, rest) =>
          match rest with
          | Tok.nat m :: rest' =>
              match readNats m rest' with
              | none => none
              | some (ls, rest'') =>
                  if rest''.isEmpty then
                    some { encoded_vectors := vs, lookup_indices := ls }
                  else none
          | _ => none
  | _ => none

/-- The index persisted by the repository's own test
(`tests/model_retriever_test.py:51`): `[[1, 0, 0], [0, 0.1, 0.9], [0, 0, 1]]`. -/
def testIndexVectors : List Vec := [[1, 0, 0], [0, 1/10, 9/10], [0, 0, 1]]

/-! ## Helper lemmas -/

theorem keysSupported_iff (hp : HParams) :
    keysSupported hp = true ↔ ∀ k ∈ hp.map Prod.fst, k ∈ supported_keys := by
  simp [keysSupported, List.all_eq_true, List.mem_map]

theorem mem_insertRanked (q : Vec) (rows : List Vec) (i : ℕ) (l : List ℕ)
    (x : ℕ) (hx : x ∈ insertRanked q rows i l) : x = i ∨ x ∈ l := by
  induction l with
  | nil => simpa [insertRanked] using hx
  | cons j js ih =>
      rw [insertRanked] at hx
      split at hx
      · rcases List.mem_cons.mp hx with h | h
        · exact Or.inr (List.mem_cons.mpr (Or.inl h))
        · rcases ih h with h' | h'
          · exact Or.inl h'
          · exact Or.inr (List.mem_cons.mpr (Or.inr h'))
      · simpa using hx

theorem mem_foldl_insertRanked (q : Vec) (rows : List Vec) :
    ∀ (l : List ℕ) (acc : List ℕ) (x : ℕ),
      x ∈ l.foldl (fun a i => insertRanked q rows i a) acc →
      x ∈ acc ∨ x ∈ l := by
  intro l
  induction l with
  | nil => intro acc x hx; exact Or.inl hx
  | cons i is ih =>
      intro acc x hx
      rw [List.foldl_cons] at hx
      rcases ih _ _ hx with h | h
      · rcases mem_insertRanked q rows i acc x h with h' | h'
        · exact Or.inr (by simp [h'])
        · exact Or.inl h'
      · exact Or.inr (List.mem_cons.mpr (Or.inr h))

/-- Every index produced by the ranking refers to a row of the index. -/
theorem mem_rankRows (q : Vec) (rows : List Vec) (x : ℕ)
    (hx : x ∈ rankRows q rows) : x < rows.length := by
  rcases mem_foldl_insertRanked q rows _ _ _ hx with h | h
  · simp at h
  · exact List.mem_range.mp h

/-- An exact-match query (`cos = 1`) passes any threshold `t ≤ 1`. -/
theorem simAtLeast_exact_match (t : ℚ) (ht : t ≤ 1) :
    simAtLeast [0, 0, 1] [0, 0, 1] t = true := by
  rcases le_or_lt t 0 with h | h
  · norm_num [simAtLeast, normSq, dot, List.zipWith, not_lt.mpr h]
  · have h2 : t ^ 2 ≤ 1 := by nlinarith
    norm_num [simAtLeast, normSq, dot, List.zipWith, h, h2]

theorem cosGE_test_row0_row1 :
    cosGE [0, 0, 1] (testIndexVectors.getD 0 [])
      (testIndexVectors.getD 1 []) = false := by
  show cosGE [0, 0, 1] [1, 0, 0] [0, 1/10, 9/10] = false
  norm_num [cosGE, simNum, simDen, normSq, dot, List.zipWith]

theorem cosGE_test_row1_row2 :
    cosGE [0, 0, 1] (testIndexVectors.getD 1 [])
      (testIndexVectors.getD 2 []) = false := by
  show cosGE [0, 0, 1] [0, 1/10, 9/10] [0, 0, 1] = false
  norm_num [cosGE, simNum, simDen, normSq, dot, List.zipWith]

/-- Ranking of the test index for query `[0, 0, 1]`: row 2 (cosine 1)
first, then row 1 (cosine ≈ 0.9938), then row 0 (cosine 0). -/
theorem rankRows_testIndexVectors :
    rankRows [0, 0, 1] testIndexVectors = [2, 1, 0] := by
  rw [rankRows, show List.range testIndexVectors.length = [0, 1, 2] from rfl]
  simp only [List.foldl_cons, List.foldl_nil]
  rw [show insertRanked [0, 0, 1] testIndexVectors 0 [] = [0] from rfl]
  rw [show insertRanked [0, 0, 1] testIndexVectors 1 [0] = [1, 0] from by
    simp only [insertRanked]; rw [cosGE_test_row0_row1]; simp]
  rw [show insertRanked [0, 0, 1] testIndexVectors 2 [1, 0] = [2, 1, 0] from by
    simp only [insertRanked]; rw [cosGE_test_row1_row2]; simp]

/-- Retrieval over the test index with query `[0, 0, 1]` and lookup
indices `[0, 1, 2, 3]` returns the name at catalog position 2, for any
catalog of three names, any threshold `t ≤ 1` and any positive clamped
depth `k`. -/
theorem retrieve_testIndex (names : List String) (t : ℚ) (d : ℕ)
    (h3 : names.length = 3) (ht : t ≤ 1) (hd : 1 ≤ d) :
    retrieve names testIndexVectors [0, 1, 2, 3] [0, 0, 1] d t =
      RetrieveResult.found (names.getD 2 "") := by
  have hne : ¬ names.length = 0 := by rw [h3]; norm_num
  have hsim : simAtLeast [0, 0, 1] (testIndexVectors.getD 2 []) t = true := by
    show simAtLeast [0, 0, 1] [0, 0, 1] t = true
    exact simAtLeast_exact_match t ht
  have htake : ∃ rest,
      List.take (min d testIndexVectors.length)
        (rankRows [0, 0, 1] testIndexVectors) = 2 :: rest := by
    rw [rankRows_testIndexVectors]
    match d, hd with
    | 1, _ => exact ⟨[], rfl⟩
    | 2, _ => exact ⟨[1], rfl⟩
    | (n + 3), _ =>
        exact ⟨[1, 0], by
          rw [show (n + 3) ⊓ testIndexVectors.length = 3 from
            min_eq_right (by show 3 ≤ n + 3; omega)]
          rfl⟩
  obtain ⟨rest, htake⟩ := htake
  rw [retrieve, if_neg hne, htake]
  show (if simAtLeast [0, 0, 1] (testIndexVectors.getD 2 []) t = true
      then RetrieveResult.found
        (names.getD (([0, 1, 2, 3] : List ℕ).getD 2 0) "")
      else RetrieveResult.noMatch) = RetrieveResult.found (names.getD 2 "")
  rw [if_pos hsim]
  rfl

theorem readRats_encode (v : List ℚ) (ts : List Tok) :
    readRats v.length (v.map Tok.rat ++ ts) = some (v, ts) := by
  induction v with
  | nil => rfl
  | cons q qs ih => simp [List.length_cons, readRats, ih]

theorem readNats_encode (l : List ℕ) (ts : List Tok) :
    readNats l.length (l.map Tok.nat ++ ts) = some (l, ts) := by
  induction l with
  | nil => rfl
  | cons n ns ih => simp [List.length_cons, readNats, ih]

theorem readNats_encode_nil (l : List ℕ) :
    readNats l.length (l.map Tok.nat) = some (l, []) := by
  simpa using readNats_encode l []

theorem readRows_encode (vs : List Vec) (ts : List Tok) :
    readRows vs.length
      (vs.flatMap (fun v => Tok.nat v.length :: v.map Tok.rat) ++ ts)
      = some (vs, ts) := by
  induction vs with
  | nil => rfl
  | cons v vss ih =>
      simp only [List.length_cons, List.flatMap_cons, List.cons_append,
        List.append_assoc]
      rw [readRows, readRats_encode]
      simp only [ih]

/-! ## Claim theorems -/

/-- Claim C1: for a persisted index holding the vectors
`[[1,0,0],[0,0.1,0.9],[0,0,1]]` with their lookup indices, `retrieve` on a
query whose encoding is `[0,0,1]` returns the model name at catalog
position 2 (the exact cosine match), and the returned name is the same for
every `search_depth` in `{2,3}` (for any three-name catalog and any
threshold the exact match passes, i.e. `t ≤ 1`). -/
theorem retrieve_exact_cosine_match (names : List String) (t : ℚ)
    (h3 : names.length = 3) (ht : t ≤ 1) :
    retrieve names testIndexVectors [0, 1, 2, 3] [0, 0, 1] 2 t =
      RetrieveResult.found (names.getD 2 "") ∧
    retrieve names testIndexVectors [0, 1, 2, 3] [0, 0, 1] 3 t =
      RetrieveResult.found (names.getD 2 "") :=
  ⟨retrieve_testIndex names t 2 h3 ht (by omega),
   retrieve_testIndex names t 3 h3 ht (by omega)⟩

/-- Concrete instance of `retrieve_exact_cosine_match` at the catalog
`["modelA", "modelB", "modelC"]` and threshold `1/2`. -/
theorem retrieve_exact_cosine_match_check :
    (["modelA", "modelB", "modelC"] : List String).length = 3 ∧
    (1/2 : ℚ) ≤ 1 ∧
    retrieve ["modelA", "modelB", "modelC"] testIndexVectors [0, 1, 2, 3]
      [0, 0, 1] 2 (1/2) = RetrieveResult.found "modelC" ∧
    retrieve ["modelA", "modelB", "modelC"] testIndexVectors [0, 1, 2, 3]
      [0, 0, 1] 3 (1/2) = RetrieveResult.found "modelC" :=
  ⟨rfl, by norm_num,
   (retrieve_exact_cosine_match ["modelA", "modelB", "modelC"] (1/2) rfl
     (by norm_num)).1,
   (retrieve_exact_cosine_match ["modelA", "modelB", "modelC"] (1/2) rfl
     (by norm_num)).2⟩

/-- Claim C2: for every query whose similarity against every indexed
vector falls below the threshold, `retrieve` yields the distinct
"no match" outcome, never a model name; the outcome is distinguishable
from a match by constructor (kind), not by string inspection. -/
theorem retrieve_below_threshold_no_match (names : List String)
    (vecs : List Vec) (lookups : List ℕ) (q : Vec) (d : ℕ) (t : ℚ)
    (hne : names ≠ [])
    (hall : ∀ v ∈ vecs, simAtLeast q v t = false) :
    retrieve names vecs lookups q d t = RetrieveResult.noMatch ∧
    ∀ s, RetrieveResult.noMatch ≠ RetrieveResult.found s := by
  refine ⟨?_, fun s h => by cases h⟩
  rw [retrieve, if_neg (by simpa [List.length_eq_zero] using hne)]
  split
  · rfl
  · next best rest heq =>
      have hb : best ∈ rankRows q vecs :=
        List.take_subset _ _ (heq ▸ List.mem_cons_self _ _)
      have hlt : best < vecs.length := mem_rankRows q vecs best hb
      have hmem : vecs.getD best [] ∈ vecs := by
        rw [List.getD_eq_getElem vecs [] hlt]
        exact List.getElem_mem hlt
      rw [if_neg (by rw [hall _ hmem]; simp)]

/-- Concrete instance of `retrieve_below_threshold_no_match`: a query
orthogonal to the single indexed vector, with threshold `1/2`. -/
theorem retrieve_below_threshold_no_match_check :
    (["a"] : List String) ≠ [] ∧
    (∀ v ∈ ([[1, 0, 0]] : List Vec), simAtLeast [0, 1, 0] v (1/2) = false) ∧
    retrieve ["a"] [[1, 0, 0]] [0] [0, 1, 0] 1 (1/2) =
      RetrieveResult.noMatch := by
  have hall : ∀ v ∈ ([[1, 0, 0]] : List Vec),
      simAtLeast [0, 1, 0] v (1/2) = false := by
    intro v hv
    simp only [List.mem_singleton] at hv
    subst hv
    norm_num [simAtLeast, normSq, dot, List.zipWith]
  exact ⟨by simp, hall,
    (retrieve_below_threshold_no_match ["a"] [[1, 0, 0]] [0] [0, 1, 0] 1
      (1/2) (by simp) hall).1⟩

/-- Claim C3 (code bug): `preprocess_dataset`'s docstring promises that
`labels` holds "a list of token IDs for the encoded output texts", but for
an encoder-decoder model the loop at generate.py:103-104 overwrites every
label token with `-100`, so the labels of output encoding `[[5, 6]]` are
`[[-100, -100]]`, not `[[5, 6]]`; the decoder-only branch does hold the
input token IDs as the claim states. -/
theorem preprocess_encoder_labels_all_neg100 :
    (preprocess_dataset true [[1, 2]] [[1, 1]] [[5, 6]]).labels
      = [[-100, -100]] ∧
    (preprocess_dataset true [[1, 2]] [[1, 1]] [[5, 6]]).labels
      ≠ [[5, 6]] ∧
    (preprocess_dataset false [[1, 2]] [[1, 1]] [[5, 6]]).labels
      = [[1, 2]] :=
  ⟨rfl, by decide, rfl⟩

/-- Claim C4: `train_model` succeeds exactly when every key of
`hyperparameter_choices` is one of the ten supported keys; any mapping
with an unrecognized key is rejected (the `assert` fires) before any
training configuration is built. -/
theorem train_model_rejects_unsupported_keys :
    ∀ (enc : Bool) (hp : HParams) (vd : List Unit),
      ((∃ cfg, train_model enc hp vd = Except.ok cfg) ↔
        ∀ k ∈ hp.map Prod.fst, k ∈ supported_keys) ∧
      ((¬ ∀ k ∈ hp.map Prod.fst, k ∈ supported_keys) →
        train_model enc hp vd =
          Except.error "Only support supported_keys as training parameters") := by
  intro enc hp vd
  by_cases h : keysSupported hp = true
  · rw [keysSupported_iff] at h
    refine ⟨⟨fun _ => h, fun _ => ?_⟩, fun hc => absurd h hc⟩
    rw [train_model, if_neg (by rw [keysSupported_iff]; simpa using h)]
    exact ⟨_, rfl⟩
  · rw [keysSupported_iff] at h
    refine ⟨⟨fun ⟨cfg, hcfg⟩ => ?_, fun hk => absurd hk h⟩, fun _ => ?_⟩
    · rw [train_model,
        if_pos (by rw [keysSupported_iff]; simpa using h)] at hcfg
      exact absurd hcfg (by simp)
    · rw [train_model, if_pos (by rw [keysSupported_iff]; simpa using h)]

/-- Concrete instance of `train_model_rejects_unsupported_keys`: the key
`"batch_size"` is rejected, while `"learning_rate"` alone passes. -/
theorem train_model_rejects_unsupported_keys_check :
    (¬ ∀ k ∈ ([("batch_size", HValue.num 32)] : HParams).map Prod.fst,
        k ∈ supported_keys) ∧
    train_model true [("batch_size", HValue.num 32)] [] =
      Except.error "Only support supported_keys as training parameters" ∧
    (∃ cfg, train_model true [("learning_rate", HValue.num (1/10000))] [] =
      Except.ok cfg) := by
  have hbad : ¬ ∀ k ∈ ([("batch_size", HValue.num 32)] : HParams).map
      Prod.fst, k ∈ supported_keys := by decide
  exact ⟨hbad,
    (train_model_rejects_unsupported_keys true
      [("batch_size", HValue.num 32)] []).2 hbad,
    (train_model_rejects_unsupported_keys true
      [("learning_rate", HValue.num (1/10000))] []).1.mpr (by decide)⟩

/-- Claim C5: with valid hyperparameters, an encoder-decoder model with no
validation datasets gets a 15% train/validation split of the preprocessed
training data (training on the remaining 85%); with validation datasets
supplied they are used instead of a split; a decoder-only model never gets
a split (no validation set at all). -/
theorem train_model_validation_split_selection :
    ∀ (hp : HParams) (vd : List Unit), keysSupported hp = true →
      (∃ cfg, train_model true hp [] = Except.ok cfg ∧
        cfg.valSource = ValSource.split (15 / 100)) ∧
      (vd ≠ [] →
        ∃ cfg, train_model true hp vd = Except.ok cfg ∧
          cfg.valSource = ValSource.supplied) ∧
      (∃ cfg, train_model false hp vd = Except.ok cfg ∧
        cfg.valSource = ValSource.noVal) := by
  intro hp vd h
  refine ⟨⟨_, by rw [train_model, if_neg (by simp [h])], ?_⟩,
    fun hvd => ⟨_, by rw [train_model, if_neg (by simp [h])], ?_⟩,
    ⟨_, by rw [train_model, if_neg (by simp [h])], ?_⟩⟩
  · simp [buildTrainerConfig]
  · simp [buildTrainerConfig, List.isEmpty_iff, hvd]
  · simp [buildTrainerConfig]

/-- Concrete instance of `train_model_validation_split_selection` at the
empty hyperparameter mapping and a one-element validation list. -/
theorem train_model_validation_split_selection_check :
    keysSupported ([] : HParams) = true ∧
    ((∃ cfg, train_model true ([] : HParams) [] = Except.ok cfg ∧
        cfg.valSource = ValSource.split (15 / 100)) ∧
      (([()] : List Unit) ≠ [] →
        ∃ cfg, train_model true ([] : HParams) [()] = Except.ok cfg ∧
          cfg.valSource = ValSource.supplied) ∧
      (∃ cfg, train_model false ([] : HParams) [()] = Except.ok cfg ∧
        cfg.valSource = ValSource.noVal)) :=
  ⟨rfl, train_model_validation_split_selection [] [()] rfl⟩

/-- Claim C6 counterexample: the index persisted by the repository's own
test (`tests/model_retriever_test.py:51-54`) has 3 encoded vectors but 4
lookup indices; the load check accepts it (its row count matches the
catalog size 3) and `retrieve` uses it successfully, so an index violating
`len(encoded_vectors) == len(lookup_indices)` is accepted. -/
theorem loaded_index_length_mismatch_accepted :
    acceptIndex 3 testIndexVectors [0, 1, 2, 3] = true ∧
    ([0, 1, 2, 3] : List ℕ).length ≠ testIndexVectors.length ∧
    retrieve ["a", "b", "c"] testIndexVectors [0, 1, 2, 3] [0, 0, 1] 2 (1/2)
      = RetrieveResult.found "c" :=
  ⟨rfl, by decide,
   retrieve_testIndex ["a", "b", "c"] (1/2) 2 rfl (by norm_num) (by omega)⟩

/-- Claim C6 amended: an index computed by `encode_model_descriptions`
always satisfies `len(lookup_indices) = len(encoded_vectors)`, but loading
a persisted index validates only that the row count of `encoded_vectors`
equals the catalog size `N` — the length of `lookup_indices` is not
checked. -/
theorem index_acceptance_checks_row_count_only :
    (∀ (descs : List String) (f : String → Vec),
        ((computeIndex descs f).2).length
          = ((computeIndex descs f).1).length) ∧
    (∀ (N : ℕ) (vecs : List Vec) (ls : List ℕ),
        acceptIndex N vecs ls = true ↔ vecs.length = N) := by
  constructor
  · intro descs f; simp [computeIndex]
  · intro N vecs ls; simp [acceptIndex]

/-- Claim C7: over an empty catalog, every `retrieve` call signals
`EmptyIndexError` — whatever index contents, query, depth or threshold are
supplied (so no similarity is computed) — and the error is a different
constructor from any successful match. -/
theorem retrieve_empty_catalog_error :
    ∀ (vecs : List Vec) (ls : List ℕ) (q : Vec) (d : ℕ) (t : ℚ),
      retrieve [] vecs ls q d t
        = RetrieveResult.error RetrieveError.emptyIndex ∧
      ∀ s, RetrieveResult.error RetrieveError.emptyIndex
        ≠ RetrieveResult.found s :=
  fun _ _ _ _ _ => ⟨rfl, fun _ h => by cases h⟩

/-- Claim C8: when `search_depth` exceeds the catalog size `N` (with the
index holding one row per catalog entry), `retrieve` behaves identically
to a call with `search_depth = N`. -/
theorem retrieve_clamps_search_depth :
    ∀ (names : List String) (vecs : List Vec) (ls : List ℕ) (q : Vec)
      (t : ℚ) (d : ℕ),
      vecs.length = names.length → names.length < d →
      retrieve names vecs ls q d t
        = retrieve names vecs ls q names.length t := by
  intro names vecs ls q t d hlen hd
  unfold retrieve
  rw [min_eq_right (by omega), min_eq_right (by omega)]

/-- Concrete instance of `retrieve_clamps_search_depth`: depth 5 over the
three-row test index equals depth 3. -/
theorem retrieve_clamps_search_depth_check :
    testIndexVectors.length = (["a", "b", "c"] : List String).length ∧
    (["a", "b", "c"] : List String).length < 5 ∧
    retrieve ["a", "b", "c"] testIndexVectors [0, 1, 2] [0, 0, 1] 5 (1/2)
      = retrieve ["a", "b", "c"] testIndexVectors [0, 1, 2] [0, 0, 1]
          (["a", "b", "c"] : List String).length (1/2) :=
  ⟨rfl, by decide,
   retrieve_clamps_search_depth ["a", "b", "c"] testIndexVectors [0, 1, 2]
     [0, 0, 1] (1/2) 5 rfl (by decide)⟩

/-- Claim C9: writing the persisted index artifact and reading it back
yields exactly the original pair of encoded vectors and lookup indices. -/
theorem index_artifact_round_trip :
    ∀ idx : ModelIndex, decodeIndex (encodeIndex idx) = some idx := by
  intro idx
  obtain ⟨vs, ls⟩ := idx
  show decodeIndex (Tok.nat vs.length ::
    (vs.flatMap (fun v => Tok.nat v.length :: v.map Tok.rat) ++
      (Tok.nat ls.length :: ls.map Tok.nat))) = some ⟨vs, ls⟩
  rw [decodeIndex]
  simp only [readRows_encode, readNats_encode_nil, List.isEmpty_nil]
  simp

/-- Concrete instance of `index_artifact_round_trip`. -/
theorem index_artifact_round_trip_check :
    decodeIndex (encodeIndex ⟨[[1/2, 0], [0, 1]], [0, 1]⟩)
      = some ⟨[[1/2, 0], [0, 1]], [0, 1]⟩ :=
  index_artifact_round_trip ⟨[[1/2, 0], [0, 1]], [0, 1]⟩

/-- Claim C10: for a decoder-only model with valid hyperparameters,
`train_model` forces the effective evaluation strategy to `"no"` whatever
`evaluation_strategy` was supplied, passes no validation dataset and no
metric-computation function to the trainer, and merely warns (still
succeeding) when validation datasets are supplied. -/
theorem train_model_decoder_only_no_eval :
    ∀ (hp : HParams) (vd : List Unit), keysSupported hp = true →
      ∃ cfg, train_model false hp vd = Except.ok cfg ∧
        cfg.evaluation_strategy = "no" ∧
        cfg.valSource = ValSource.noVal ∧
        cfg.computeMetricsUsed = false ∧
        (vd ≠ [] → decoderEvalWarning ∈ cfg.warnings) := by
  intro hp vd h
  refine ⟨_, by rw [train_model, if_neg (by simp [h])], ?_, ?_, ?_, ?_⟩
  · by_cases he : getStr hp "evaluation_strategy" "no" = "no" <;>
      simp [buildTrainerConfig, he]
  · simp [buildTrainerConfig]
  · simp [buildTrainerConfig]
  · intro hvd
    by_cases he : getStr hp "evaluation_strategy" "no" = "no" <;>
      simp [buildTrainerConfig, he, List.isEmpty_iff, hvd]

/-- Concrete instance of `train_model_decoder_only_no_eval`: the caller
asks for `evaluation_strategy = "epoch"` and supplies a validation
dataset; the decoder-only call still runs with no evaluation. -/
theorem train_model_decoder_only_no_eval_check :
    keysSupported [("evaluation_strategy", HValue.str "epoch")] = true ∧
    (∃ cfg, train_model false [("evaluation_strategy", HValue.str "epoch")]
        [()] = Except.ok cfg ∧
      cfg.evaluation_strategy = "no" ∧
      cfg.valSource = ValSource.noVal ∧
      cfg.computeMetricsUsed = false ∧
      (([()] : List Unit) ≠ [] → decoderEvalWarning ∈ cfg.warnings)) :=
  ⟨by decide,
   train_model_decoder_only_no_eval
     [("evaluation_strategy", HValue.str "epoch")] [()] (by decide)⟩

end Prompt2Model
